import Mathlib

set_option maxHeartbeats 1000000

/-!
Verification of the rule-based job-classification core of the
2025-SUMMER-TEAM-KMJ/Serverless repository, against its natural-language
specification.  The embedding covers `src/embedding/field_standardization.py`
(title/body rule matching, deny filtering, priority resolution, salary
bucketing, title and body extraction) and `src/embedding/chunk_indexing.py`
(province extraction and paragraph-block chunking).

Modelling conventions:
* Python strings are Lean `String`s (sequences of Unicode code points, which
  is also what Python indexes and slices by).
* Python regular-expression search (`re.search(p, text)`) is an abstract
  boolean matcher parameter `m : String → String → Bool` taking the pattern
  string and the text: the classification control flow treats the regex
  engine as a black box, so every theorem quantifies over `m`.  The one
  regex the address code depends on, `^(\S+?시|\S+?도)`, is embedded
  explicitly (`sidoMatch`) because its behaviour decides a claim.
* Python `str(x)` on arbitrary values is an abstract parameter
  `toStr : Value → String`, again because the code only pipes it through.
* A JSON-ish document value is `Value`; a Python function that can raise an
  uncaught exception returns `PyResult`.
* Python whitespace (`str.strip`, `str.split`, regex `\s`) is modelled by
  `pyIsSpace`, restricted to the ASCII whitespace characters; exotic Unicode
  whitespace is not modelled.  `str.lower` is modelled by `pyLower`
  (ASCII case folding; the Korean rule text has no case).
-/

namespace Serverless

/-- Python whitespace test used by `str.split()`, `str.strip()` and the
regex class `\s`, restricted to ASCII whitespace. -/
def pyIsSpace (c : Char) : Bool :=
  c = ' ' || c = '\t' || c = '\n' || c = '\r' || c = '\x0b' || c = '\x0c'

/-- Python `s.strip()` on the character list of a string. -/
def pyStripChars (l : List Char) : List Char :=
  ((l.dropWhile pyIsSpace).reverse.dropWhile pyIsSpace).reverse

/-- Python `s.strip()`. -/
def pyStrip (s : String) : String :=
  String.mk (pyStripChars s.data)

/-- Python `s.lower()`, modelled as ASCII case folding character by
character (the Korean rule text has no case). -/
def pyLower (s : String) : String :=
  String.mk (s.data.map Char.toLower)

/-- Python `s[:n]` on a string (by code points). -/
def pyTake (s : String) (n : Nat) : String :=
  String.mk (s.data.take n)

/-- Helper for Python `s.split()` (no separator argument): `acc` holds the
characters of the token being built, in reverse. -/
def pySplitGo : List Char → List Char → List (List Char)
  | acc, [] => if acc.isEmpty then [] else [acc.reverse]
  | acc, c :: cs =>
    if pyIsSpace c then
      if acc.isEmpty then pySplitGo [] cs else acc.reverse :: pySplitGo [] cs
    else
      pySplitGo (c :: acc) cs

/-- Python `s.split()` with no separator: maximal runs of non-whitespace
characters, leading/trailing/repeated whitespace discarded. -/
def pySplit (l : List Char) : List (List Char) :=
  pySplitGo [] l

/-- Group the reversed digit list of a number in threes (helper for the
thousands separator of Python format `f"\x7bn:,\x7d"`). -/
def chunk3 : List Char → List (List Char)
  | [] => []
  | [a] => [[a]]
  | [a, b] => [[a, b]]
  | a :: b :: c :: rest => [a, b, c] :: chunk3 rest

/-- Python `f"\x7bn:,\x7d"` for a natural number: decimal digits with a comma
every three digits from the right. -/
def commaFmt (n : Nat) : String :=
  String.mk ((List.intercalate [','] (chunk3 (Nat.repr n).data.reverse)).reverse)

/-- A JSON-ish Python value, as stored in the Mongo documents the embedding
code reads.  Python `int` and `float` are folded into one numeric
constructor over `Rat` (every IEEE double is rational; the code under
verification only floors, divides and compares). -/
inductive Value where
  | null : Value
  | num : Rat → Value
  | str : String → Value
  | list : List Value → Value
  | dict : List (String × Value) → Value

/-- The `_get` helper of field_standardization.py (lines 185-191): walk a
key path through nested dicts; any missing key or non-dict intermediate
yields Python `None`, modelled as `none`. -/
def pyGet : Value → List String → Option Value
  | v, [] => some v
  | Value.dict kvs, k :: ks =>
    match kvs.lookup k with
    | some v => pyGet v ks
    | none => none
  | _, _ :: _ => none

/-- Outcome of a Python call that can raise an uncaught exception. -/
inductive PyResult (α : Type) where
  | ok : α → PyResult α
  | raise : PyResult α
deriving DecidableEq

/-- Python `int(val)` on a numeric value: truncation toward zero. -/
def pyInt (q : Rat) : Int :=
  if 0 ≤ q then ⌊q⌋ else ⌈q⌉

/-- The salary label of field_standardization.py lines 39-49:
`y = int(val)`, `start = (y // 2_000_000) * 2_000_000`, `end = start +
2_000_000`, label `f"\x7bto_man(start):,\x7d만~\x7bto_man(end):,\x7d만"`
with `to_man(x) = int(round(x / 10_000))`.  Python `//` is floor division
(`Int.fdiv`); both bounds are multiples of 10,000, so `round` is exact and
`to_man` is modelled by floor division as well. -/
def bucketLabel (q : Rat) : String :=
  let y : Int := pyInt q
  let start : Int := y.fdiv 2000000 * 2000000
  let stop : Int := start + 2000000
  commaFmt (start.fdiv 10000).toNat ++ "만~" ++ commaFmt (stop.fdiv 10000).toNat ++ "만"

/-- The `comp.get("avgSalary")` part of `standardize_company_salary`
(lines 35-49): no label unless the value is numeric and positive. -/
def salaryOf (kvs : List (String × Value)) : Option String :=
  match kvs.lookup "avgSalary" with
  | some (Value.num q) => if q ≤ 0 then none else some (bucketLabel q)
  | _ => none

/-- `standardize_company_salary` (field_standardization.py lines 30-49).
The returned dict is modelled as `Option String`: `some label` for
`\x7b"salary_bucket_2m_label": label\x7d` and `none` for the empty dict.
`comp = doc.get("company") or \x7b\x7d` replaces a falsy `company` with the
empty dict, but a truthy non-dict `company` flows into `comp.get(...)`,
which raises `AttributeError`: that is `PyResult.raise`. -/
def standardize_company_salary (doc : List (String × Value)) : PyResult (Option String) :=
  match (doc.lookup "company").getD Value.null with
  | Value.dict kvs => PyResult.ok (salaryOf kvs)
  | Value.null => PyResult.ok (salaryOf [])
  | Value.num q => if q = 0 then PyResult.ok (salaryOf []) else PyResult.raise
  | Value.str s => if s = "" then PyResult.ok (salaryOf []) else PyResult.raise
  | Value.list l => if l.isEmpty then PyResult.ok (salaryOf []) else PyResult.raise

/-- `BODY_DENY` (field_standardization.py lines 57-72), verbatim. -/
def BODY_DENY : List (String × List String) :=
  [ ("marketing", ["개발자|엔지니어|프로그래머|api|배포|db|알고리즘|공정|품질|라인|설비"]),
    ("backend",   ["마케터|마케팅|영업|세일즈|디자이너|브랜딩|총무|인사|회계|법무|물류"]),
    ("frontend",  ["마케터|마케팅|영업|세일즈|회계|법무|물류|공정|품질|라인|설비"]),
    ("data",      ["영업(?!\\s*데이터)|세일즈(?!\\s*데이터)|브랜딩|법무|공정|라인"]),
    ("ai_ml",     ["영업|세일즈|브랜딩|법무|공정|라인"]),
    ("design",    ["서버|백엔드|프로그래밍|공정|라인|설비|법무|회계"]),
    ("sales",     ["개발자|엔지니어|프로그래머|공정|라인|설비|법무|회계"]),
    ("cs",        ["개발자|엔지니어|프로그래머|마케터|브랜딩|법무|공정|라인|설비"]),
    ("hr",        ["개발자|엔지니어|프로그래머|마케터|브랜딩|공정|라인|설비"]),
    ("legal",     ["개발자|엔지니어|프로그래머|마케터|브랜딩|공정|라인|설비"]),
    ("logistics", ["개발자|엔지니어(?!\\s*설비)|프로그래머|브랜딩|법무|회계|디자인"]),
    ("manufacturing", ["마케터|브랜딩|영업|세일즈|법무|회계|디자인|광고"]),
    ("strategy_exec", ["영상\\s*편집|유튜브|퍼포먼스\\s*마케터"]),
    ("video_editing", ["개발자|엔지니어|서버|공정|라인|설비|법무|회계"]) ]

/-- `PRIORITY` (field_standardization.py lines 75-80), verbatim. -/
def PRIORITY : List String :=
  [ "security", "backend", "frontend", "data", "ai_ml",
    "manufacturing", "logistics",
    "design", "marketing", "sales", "cs", "hr", "legal",
    "video_editing", "product", "strategy_exec" ]

/-- `TITLE_RULES` (field_standardization.py lines 83-161), verbatim (Python
raw-string patterns transcribed with Lean escaping). -/
def TITLE_RULES : List (String × List String) :=
  [ ("design", [
      "디자이너",
      "designer",
      "\\b2d\\b|2d\\s*디자이너",
      "ui[,/\\s]*gui\\s*디자이너|ui\\s*디자이너",
      "ux\\s*디자이너|\\bux\\b\\s*디자이너",
      "웹\\s*디자이너|그래픽\\s*디자이너|bi/bx\\s*디자이너|브랜드\\s*디자이너",
      "제품\\s*디자이너|산업\\s*디자이너",
      "공간\\s*디자이너|인테리어\\s*디자이너|출판[,\\s]*편집\\s*디자이너"
    ]),
    ("security", [
      "보안\\s*엔지니어|정보보호|security",
      "시스템.*관리자|네트워크\\s*관리자|\\bsre\\b|\\bsoc\\b|\\bsiem\\b|시스템.*관리자|네트워크\\s*관리자"
    ]),
    ("product", [
      "pm·?po|\\bpo\\b|product\\s*(manager|owner)|프로덕트\\s*매니저|서비스\\s*기획",
      "전략\\s*기획자?|사업개발|biz\\s*dev|\\bbd\\b",
      "서비스\\s*운영\\s*매니저|프로덕트\\s*운영\\s*매니저",
      "교육\\s*기획|교재"
    ]),
    ("marketing", [
      "\\b마케터\\b|마케팅|브랜드|콘텐츠\\s*마케터|퍼포먼스\\s*마케터|\\bbtl\\b|\\bpr\\b|홍보",
      "글로벌\\s*마케팅|소셜\\s*마케터|키워드\\s*광고",
      "통[·\\s]*번역|locali[sz]ation|로컬라이제이션"
    ]),
    ("sales", [
      "영업|세일즈|account\\s*executive|대면\\s*영업",
      "key\\s*account|주요고객사\\s*담당자|\\bkam\\b|유통\\s*관리자|리테일\\s*md|매장\\s*(관리자|점원)|기술영업|해외영업"
    ]),
    ("cs", [
      "\\bcs\\b|고객성공|customer\\s*success|고객\\s*응대|voc|콜\\s*센터|서비스\\s*운영|운영\\s*매니저|오피스\\s*관리|총무|유지보수\\s*관리자",
      "cs\\s*운영\\s*매니저|고객\\s*운영\\s*매니저"
    ]),
    ("manufacturing", [
      "품질\\s*관리자|qa|qc|검사|inspec|quality",
      "생산|제조|공정|라인|설비\\s*엔지니어|장비\\s*엔지니어|시운전\\s*엔지니어|현장\\s*소장"
    ]),
    ("legal", ["법무|특허|compliance|준법|계약|라이(?:센|선)스\\s*관리자|\\blicense\\b"]),
    ("logistics", ["물류|입·출고|배송|무역\\s*사무|수출입|현장\\s*소장|구매\\s*담당|생산\\s*관리자|자재관리"]),
    ("hr", ["인사|리크루터|헤드헌터|\\bhrbp\\b|\\bhrd\\b|평가·보상|회계|경리|재무|자금"]),
    ("strategy_exec", [
      "\\bcio\\b|chief\\s*information\\s*officer",
      "\\bceo\\b|chief\\s*executive\\s*officer",
      "\\bcto\\b|chief\\s*technology\\s*officer",
      "컨설턴트"
    ]),
    ("video_editing", [
      "영상\\s*편집|video\\s*editing|video\\s*editor|동영상\\s*편집",
      "영상\\s*제작|video\\s*production|촬영\\s*및\\s*편집",
      "모션\\s*그래픽|motion\\s*graphics?|영상\\s*그래픽",
      "프리미어\\s*프로|after\\s*effects?|프리미어\\s*에프터이펙트",
      "유튜브\\s*영상|youtube\\s*video"
    ]),
    ("data", [
      "데이터\\s*엔지니어|data\\s*engineer|빅데이터\\s*엔지니어|\\bdba\\b|etl|spark|hadoop|airflow|kafka",
      "데이터\\s*분석가|data\\s*analyst",
      "데이터\\s*사이언티스트|data\\s*scientist"
    ]),
    ("ai_ml", [
      "머신러닝|machine\\s*learning|\\bml\\b|딥러닝|deep\\s*learning",
      "\\bnlp\\b|computer\\s*vision|recommendation|mle"
    ]),
    ("frontend", [
      "프론트\\s*(엔드)?|\\bfrontend\\b",
      "웹\\s*퍼블리셔|웹\\s*퍼블리싱",
      "(react|vue|svelte)(?!\\s*native)",
      "next\\.js\\b|nuxt\\.js\\b",
      "(typescript|ts)\\b(?=.*\\b(react|vue|next|spa|dom|브라우저)\\b)",
      "ui\\s*개발자(?=.*\\b(react|vue|spa|dom|프론트)\\b)"
    ]),
    ("backend", [
      "백엔드|\\bbackend\\b|서버\\s*개발자|\\bjava\\b|\\bspring\\b|node\\.js|\\bnode\\b|php|\\.net|\\bgolang\\b|\\bgo\\b|django|fastapi|nestjs|msa|microservices|자바",
      "c\\+\\+|c/c\\+\\+|임베디드|embedded|erp|sap|oracle"
    ]) ]

/-- `BODY_RULES` (field_standardization.py lines 164-182), verbatim. -/
def BODY_RULES : List (String × List String) :=
  [ ("security", ["보안\\s*엔지니어|정보보호|security|\\bsre\\b|\\bsoc\\b|\\bsiem\\b"]),
    ("design", ["\\bux\\b|ux\\s*디자이너|ui[,/\\s]*gui\\s*디자이너|ui\\s*디자이너|그래픽\\s*디자이너|\\b(bi|bx)\\b\\s*디자이너|브랜딩|웹\\s*디자이너|제품\\s*디자이너|산업\\s*디자이너"]),
    ("product", ["\\bpm\\b|product\\s*(manager|owner)|프로덕트\\s*매니저|서비스\\s*기획|전략\\s*기획|사업개발|교육\\s*기획|교재|운영\\s*매니저"]),
    ("marketing", ["마케터|마케팅|브랜드|콘텐츠\\s*마케터|퍼포먼스\\s*마케터|리테일\\s*md|\\bpr\\b|홍보|로컬라이제이션|키워드\\s*광고|\\bbtl\\b"]),
    ("sales", ["영업|세일즈|account\\s*executive|key\\s*account|\\bkam\\b|유통\\s*관리자|매장\\s*(관리자|점원)|기술영업|해외영업"]),
    ("cs", ["\\bcs\\b|customer\\s*success|고객\\s*응대|voc|콜\\s*센터|서비스\\s*운영|(cs|고객)\\s*운영\\s*매니저|오피스\\s*관리|총무|유지보수\\s*관리자"]),
    ("legal", ["법무|특허|compliance|준법|계약|라이(?:센|선)스"]),
    ("logistics", ["물류|입·출고|배송|무역\\s*사무|수출입|현장\\s*소장|구매\\s*담당|생산\\s*관리자|자재관리"]),
    ("hr", ["인사|리크루터|헤드헌터|\\bhrbp\\b|\\bhrd\\b|평가·보상|회계|경리|재무|자금"]),
    ("manufacturing", ["테스트\\s*엔지니어|품질\\s*관리자|qa|qc|검사|inspec|quality|생산|제조|공정|라인|설비\\s*엔지니어|장비\\s*엔지니어|시운전\\s*엔지니어|현장\\s*소장"]),
    ("strategy_exec", ["\\b(cio|ceo|cto)\\b|chief\\s*(information|executive|technology)\\s*officer|컨설턴트"]),
    ("video_editing", ["영상\\s*편집|video\\s*editing|video\\s*editor|동영상\\s*편집|영상\\s*제작|video\\s*production|촬영\\s*및\\s*편집|모션\\s*그래픽|motion\\s*graphics?|영상\\s*그래픽|프리미어\\s*프로|after\\s*effects?|프리미어\\s*에프터이펙트|유튜브\\s*영상|youtube\\s*video"]),
    ("data", ["데이터\\s*엔지니어|data\\s*engineer|빅데이터|\\bdba\\b|etl|spark|hadoop|airflow|kafka|데이터\\s*분석가|data\\s*analyst|데이터\\s*사이언티스트|data\\s*scientist"]),
    ("ai_ml", ["머신러닝|machine\\s*learning|\\bml\\b|딥러닝|deep\\s*learning|\\bnlp\\b|computer\\s*vision|recommendation|mle"]),
    ("frontend", ["프론트엔드|\\bfrontend\\b|웹\\s*퍼블리셔|\\bpublisher\\b|ui\\s*개발자|react|vue|typescript|next\\.js|svelte|모바일|ios|android|react\\s*native|flutter|unity|unreal|게임\\s*클라이언트"]),
    ("backend", ["백엔드|backend|서버\\s*개발자|java|spring|node\\.js|php|\\.net|golang|\\bgo\\b|django|fastapi|nestjs|msa|microservices|c\\+\\+|임베디드|embedded|erp|sap|oracle"]) ]

/-- Title pass of `match_by_rules` (lines 219-222): the bucket of the first
`TITLE_RULES` entry, in declaration order, one of whose patterns matches the
(already lowercased) title. -/
def titleFirstMatch (m : String → String → Bool) (t : String) : Option String :=
  (TITLE_RULES.find? (fun e => e.2.any (fun p => m p t))).map Prod.fst

/-- Body candidate collection of `match_by_rules` (lines 225-228): the
buckets of all `BODY_RULES` entries, in declaration order, with at least one
pattern matching the (already lowercased) body. -/
def bodyCandidates (m : String → String → Bool) (b : String) : List String :=
  (BODY_RULES.filter (fun e => e.2.any (fun p => m p b))).map Prod.fst

/-- Deny filtering of `match_by_rules` (lines 234-238): drop every candidate
bucket one of whose `BODY_DENY` patterns matches the body. -/
def denyFilter (m : String → String → Bool) (b : String) (cands : List String) : List String :=
  cands.filter (fun bkt => !(((BODY_DENY.lookup bkt).getD []).any (fun p => m p b)))

/-- Priority resolution of `match_by_rules` (lines 244-249): the first
`PRIORITY` entry occurring in the candidate list, else the first candidate.
(The Python guard `if 'PRIORITY' in globals()` is constantly true, since
`PRIORITY` is defined at module level.) -/
def priorityPick (l : List String) : Option String :=
  match PRIORITY.find? (fun p => l.contains p) with
  | some p => some p
  | none => l.head?

/-- `match_by_rules` (field_standardization.py lines 214-249). -/
def match_by_rules (m : String → String → Bool) (title body : String) : Option String :=
  let t := pyLower title
  let b := pyLower body
  match titleFirstMatch m t with
  | some bucket => some bucket
  | none =>
    let candidates := bodyCandidates m b
    if candidates = [] then none
    else
      let filtered := denyFilter m b candidates
      let filtered2 := if filtered = [] then candidates else filtered
      priorityPick filtered2

/-- One iteration of the path loop in `extract_title` (lines 194-199): a
non-empty list value yields `str` of its first element, a string value with
non-whitespace content yields itself; everything else falls through. -/
def titleFromPath (toStr : Value → String) (doc : Value) (path : List String) : Option String :=
  match pyGet doc path with
  | some (Value.list (v :: _)) => some (toStr v)
  | some (Value.str s) => if pyStrip s = "" then none else some s
  | _ => none

/-- Python `s.splitlines()[0]` for a string not starting with a line break:
the characters before the first line break.  (Modelled on the common break
characters; the rarer Unicode breaks are not modelled.) -/
def firstLine (l : List Char) : List Char :=
  l.takeWhile (fun c => !(c = '\n' || c = '\r' || c = '\x0b' || c = '\x0c'))

/-- `extract_title` (field_standardization.py lines 193-203). -/
def extract_title (toStr : Value → String) (doc : Value) : String :=
  match titleFromPath toStr doc ["job"] with
  | some t => t
  | none =>
  match titleFromPath toStr doc ["position", "job"] with
  | some t => t
  | none =>
  match titleFromPath toStr doc ["detail", "position", "job"] with
  | some t => t
  | none =>
  match pyGet doc ["detail", "intro"] with
  | some (Value.str s) =>
    if pyStrip s = "" then "" else String.mk ((firstLine (pyStrip s).data).take 80)
  | _ => ""

/-- `gather_body` (field_standardization.py lines 205-212): join the string
fields `detail.intro`, `detail.main_tasks`, `detail.requirements` that have
non-whitespace content with newlines, lowercase, truncate to 10,000
characters. -/
def gather_body (doc : List (String × Value)) : String :=
  let buf := [["detail", "intro"], ["detail", "main_tasks"], ["detail", "requirements"]].filterMap
    (fun path =>
      match pyGet (Value.dict doc) path with
      | some (Value.str s) => if pyStrip s = "" then none else some s
      | _ => none)
  pyTake (pyLower (String.intercalate "\n" buf)) 10000

/-- `classify_doc` (field_standardization.py lines 251-256): record id,
title (or the "(no-title)" placeholder), bucket (or "etc"). -/
def classify_doc (m : String → String → Bool) (toStr : Value → String)
    (doc : List (String × Value)) : String × String × String :=
  let rid := toStr ((doc.lookup "_id").getD Value.null)
  let title := extract_title toStr (Value.dict doc)
  let body := gather_body doc
  let bucket := (match_by_rules m title body).getD "etc"
  (rid, if title = "" then "(no-title)" else title, bucket)

/-- Python `s[-n:]` on a string (by code points): the last `min n (length s)`
characters. -/
def pyTail (s : String) (n : Nat) : String :=
  String.mk (s.data.drop (s.data.length - n))

/-- The accumulation loop of `chunk_by_paragraph_blocks`
(chunk_indexing.py lines 152-167), as a direct recursion over the remaining
blocks; the chunks appended so far are emitted in front of the recursive
call, and the trailing `if cur: chunks.append(cur)` flush is the base
case. -/
def chunkLoop (maxChars overlapChars : Nat) : String → List String → List String
  | cur, [] => if cur = "" then [] else [cur]
  | cur, b :: bs =>
    let addLen := (if cur = "" then 0 else 2) + b.length
    if cur.length + addLen ≤ maxChars then
      chunkLoop maxChars overlapChars (if cur = "" then b else cur ++ "\n\n" ++ b) bs
    else if cur = "" then
      b :: chunkLoop maxChars overlapChars "" bs
    else
      cur :: chunkLoop maxChars overlapChars
        (let tail := if 0 < overlapChars then pyTail cur overlapChars else ""
         if tail = "" then b else tail ++ "\n\n" ++ b) bs

/-- `chunk_by_paragraph_blocks` (chunk_indexing.py lines 152-167). -/
def chunk_by_paragraph_blocks (blocks : List String) (maxChars overlapChars : Nat) : List String :=
  chunkLoop maxChars overlapChars "" blocks

/-- Backtracking search of one regex alternative `\S+?시` (resp. `도`) of
`^(\S+?시|\S+?도)` anchored at the start: `pre` holds the characters already
consumed by `\S+?`, in reverse.  Non-greedy repetition tries the literal at
each position first, so the result is the shortest prefix consisting of at
least one non-whitespace character followed by `target`. -/
def altM (target : Char) : List Char → List Char → Option (List Char)
  | _, [] => none
  | pre, c :: cs =>
    if !pre.isEmpty && c = target then some (pre.reverse ++ [c])
    else if !(pyIsSpace c) then altM target (c :: pre) cs
    else none

/-- `re.match(r"^(\S+?시|\S+?도)", s)`: the regex engine exhausts the first
alternative (with all its backtracking) before trying the second. -/
def sidoMatch (l : List Char) : Option (List Char) :=
  match altM '시' [] l with
  | some g => some g
  | none => altM '도' [] l

/-- `extract_sido` (chunk_indexing.py lines 43-47).  When the regex does not
match and `full_location.split()` is empty — a non-empty all-whitespace
input — the Python `[0]` raises `IndexError`, modelled by
`PyResult.raise`. -/
def extract_sido (full_location : String) : PyResult String :=
  if full_location = "" then PyResult.ok ""
  else
    match sidoMatch full_location.data with
    | some g => PyResult.ok (pyStrip (String.mk g))
    | none =>
      match pySplit full_location.data with
      | [] => PyResult.raise
      | t :: _ => PyResult.ok (pyStrip (String.mk t))

/-- Blocks of one chunk joined by a blank line — claim C7's "consecutive
blocks inside a chunk separated by a blank line". -/
def joinBlocks : List String → String
  | [] => ""
  | [b] => b
  | b :: bs => b ++ "\n\n" ++ joinBlocks bs

/-- Specification relation for claim C7, written from the claim's words:
`Reassem ov pfx blocks chunks` holds when `chunks` carries exactly the
blocks of `blocks`, in order, grouped into consecutive non-empty runs — each
chunk is its run joined by blank lines, preceded by an overlap seed that is
either empty or the trailing `ov` characters of the previous chunk followed
by a blank line.  Stripping the seeds therefore reconstructs the original
block sequence. -/
inductive Reassem (ov : Nat) : String → List String → List String → Prop where
  | nil : ∀ pfx, Reassem ov pfx [] []
  | consFresh : ∀ pfx g rest chunks c, g ≠ [] → c = pfx ++ joinBlocks g →
      Reassem ov "" rest chunks →
      Reassem ov pfx (g ++ rest) (c :: chunks)
  | consSeed : ∀ pfx g rest chunks c, g ≠ [] → c = pfx ++ joinBlocks g →
      Reassem ov (pyTail c ov ++ "\n\n") rest chunks →
      Reassem ov pfx (g ++ rest) (c :: chunks)

/-- Matcher used by witnesses: matches exactly the listed pattern strings,
whatever the text. -/
def onlyPatterns (ps : List String) : String → String → Bool :=
  fun p _ => ps.contains p

/-- Helper: priority resolution on a non-empty candidate list always yields
a bucket. -/
theorem priorityPick_isSome {l : List String} (h : l ≠ []) : (priorityPick l).isSome := by
  unfold priorityPick
  cases hf : PRIORITY.find? (fun p => l.contains p) with
  | some p => rfl
  | none =>
    cases l with
    | nil => exact absurd rfl h
    | cons a l' => rfl

/-- Claim C1: if any pattern of any title-rule entry matches the
(lowercased) title, `match_by_rules` returns the bucket of the first
`TITLE_RULES` entry, in declaration order, that has a matching pattern —
whatever the body is, so in particular without any deny filtering. -/
theorem claim_c1 (m : String → String → Bool) (title body body' : String)
    (h : ∃ e ∈ TITLE_RULES, ∃ p ∈ e.2, m p (pyLower title) = true) :
    match_by_rules m title body
      = (TITLE_RULES.find? (fun e => e.2.any (fun p => m p (pyLower title)))).map Prod.fst
    ∧ match_by_rules m title body = match_by_rules m title body' := by
  have hs : (TITLE_RULES.find? (fun e => e.2.any (fun p => m p (pyLower title)))).isSome := by
    rw [List.find?_isSome]
    obtain ⟨e, he, p, hp, hm⟩ := h
    exact ⟨e, he, List.any_eq_true.mpr ⟨p, hp, hm⟩⟩
  obtain ⟨e₀, he₀⟩ := Option.isSome_iff_exists.mp hs
  constructor <;> simp [match_by_rules, titleFirstMatch, he₀]

/-- Witness for C1: with a matcher accepting everything, the first title
rule in table order ("design") wins, whatever the body. -/
theorem claim_c1_witness :
    match_by_rules (fun _ _ => true) "Dev" "Body" = some "design"
    ∧ match_by_rules (fun _ _ => true) "Dev" "Body"
        = match_by_rules (fun _ _ => true) "Dev" "Other" := by
  have h := claim_c1 (fun _ _ => true) "Dev" "Body" "Other" (by decide)
  exact ⟨h.1.trans (by decide), h.2⟩

/-- Claim C2: with no title match, a non-empty body candidate list and at
least one candidate surviving deny filtering, `match_by_rules` returns the
first `PRIORITY` entry occurring in the surviving candidate list, else the
first surviving candidate in match order (`priorityPick`). -/
theorem claim_c2 (m : String → String → Bool) (title body : String)
    (hTitle : titleFirstMatch m (pyLower title) = none)
    (hcne : bodyCandidates m (pyLower body) ≠ [])
    (hfne : denyFilter m (pyLower body) (bodyCandidates m (pyLower body)) ≠ []) :
    match_by_rules m title body
      = priorityPick (denyFilter m (pyLower body) (bodyCandidates m (pyLower body))) := by
  simp [match_by_rules, hTitle, hcne, hfne]

/-- Witness for C2: a matcher accepting exactly the security body pattern
matches no title pattern, yields the single surviving candidate "security",
and the priority walk returns it. -/
theorem claim_c2_witness :
    match_by_rules
      (onlyPatterns ["보안\\s*엔지니어|정보보호|security|\\bsre\\b|\\bsoc\\b|\\bsiem\\b"])
      "Title" "Body" = some "security" := by
  have h := claim_c2
    (onlyPatterns ["보안\\s*엔지니어|정보보호|security|\\bsre\\b|\\bsoc\\b|\\bsiem\\b"])
    "Title" "Body" (by decide) (by decide) (by decide)
  exact h.trans (by decide)

/-- Claim C3: with no title match and a non-empty candidate list that deny
filtering would empty, `match_by_rules` reverts to the unfiltered candidate
list and resolves priority over it — deny filtering never turns a non-empty
candidate list into a no-decision outcome. -/
theorem claim_c3 (m : String → String → Bool) (title body : String)
    (hTitle : titleFirstMatch m (pyLower title) = none)
    (hcne : bodyCandidates m (pyLower body) ≠ [])
    (hfe : denyFilter m (pyLower body) (bodyCandidates m (pyLower body)) = []) :
    match_by_rules m title body = priorityPick (bodyCandidates m (pyLower body))
    ∧ (match_by_rules m title body).isSome := by
  have hmain : match_by_rules m title body = priorityPick (bodyCandidates m (pyLower body)) := by
    simp [match_by_rules, hTitle, hcne, hfe]
  exact ⟨hmain, hmain ▸ priorityPick_isSome hcne⟩

/-- Witness for C3: a matcher accepting exactly the marketing body pattern
and the marketing deny pattern produces the candidate list ["marketing"],
deny filtering empties it, and the fallback still returns "marketing". -/
theorem claim_c3_witness :
    match_by_rules
      (onlyPatterns
        ["마케터|마케팅|브랜드|콘텐츠\\s*마케터|퍼포먼스\\s*마케터|리테일\\s*md|\\bpr\\b|홍보|로컬라이제이션|키워드\\s*광고|\\bbtl\\b",
         "개발자|엔지니어|프로그래머|api|배포|db|알고리즘|공정|품질|라인|설비"])
      "Title" "Body" = some "marketing"
    ∧ (match_by_rules
        (onlyPatterns
          ["마케터|마케팅|브랜드|콘텐츠\\s*마케터|퍼포먼스\\s*마케터|리테일\\s*md|\\bpr\\b|홍보|로컬라이제이션|키워드\\s*광고|\\bbtl\\b",
           "개발자|엔지니어|프로그래머|api|배포|db|알고리즘|공정|품질|라인|설비"])
        "Title" "Body").isSome := by
  have h := claim_c3
    (onlyPatterns
      ["마케터|마케팅|브랜드|콘텐츠\\s*마케터|퍼포먼스\\s*마케터|리테일\\s*md|\\bpr\\b|홍보|로컬라이제이션|키워드\\s*광고|\\bbtl\\b",
       "개발자|엔지니어|프로그래머|api|배포|db|알고리즘|공정|품질|라인|설비"])
    "Title" "Body" (by decide) (by decide) (by decide)
  exact ⟨h.1.trans (by decide), h.2⟩

/-- Claim C9: classification is deterministic — `match_by_rules` and
`classify_doc` are functions of the matcher, the rule tables (fixed
constants of this file) and their text/document inputs alone, so equal
inputs give equal buckets and equal classification triples. -/
theorem claim_c9 (m : String → String → Bool) (toStr : Value → String)
    (t₁ b₁ t₂ b₂ : String) (d₁ d₂ : List (String × Value))
    (ht : t₁ = t₂) (hb : b₁ = b₂) (hd : d₁ = d₂) :
    match_by_rules m t₁ b₁ = match_by_rules m t₂ b₂
    ∧ classify_doc m toStr d₁ = classify_doc m toStr d₂ := by
  subst ht hb hd
  exact ⟨rfl, rfl⟩

/-- Witness for C9 at a concrete matcher, document and text pair. -/
theorem claim_c9_witness :
    match_by_rules (fun _ _ => false) "백엔드 개발자" "본문"
      = match_by_rules (fun _ _ => false) "백엔드 개발자" "본문"
    ∧ classify_doc (fun _ _ => false) (fun _ => "") [("job", Value.str "백엔드 개발자")]
      = classify_doc (fun _ _ => false) (fun _ => "") [("job", Value.str "백엔드 개발자")] :=
  claim_c9 (fun _ _ => false) (fun _ => "") "백엔드 개발자" "본문" "백엔드 개발자" "본문"
    [("job", Value.str "백엔드 개발자")] [("job", Value.str "백엔드 개발자")] rfl rfl rfl

/-- Claim C4: when no title-rule pattern matches the extracted title and no
body-rule pattern matches the gathered body, `classify_doc` returns the
bucket "etc" (and, being a total function of its inputs, does not raise). -/
theorem claim_c4 (m : String → String → Bool) (toStr : Value → String)
    (doc : List (String × Value))
    (hT : ∀ e ∈ TITLE_RULES, ∀ p ∈ e.2,
      m p (pyLower (extract_title toStr (Value.dict doc))) = false)
    (hB : ∀ e ∈ BODY_RULES, ∀ p ∈ e.2, m p (pyLower (gather_body doc)) = false) :
    (classify_doc m toStr doc).2.2 = "etc" := by
  have h1 : titleFirstMatch m (pyLower (extract_title toStr (Value.dict doc))) = none := by
    have hfind : TITLE_RULES.find?
        (fun e => e.2.any (fun p => m p (pyLower (extract_title toStr (Value.dict doc)))))
        = none := by
      rw [List.find?_eq_none]
      intro e he
      simp only [List.any_eq_true, not_exists, not_and]
      intro p hp
      simp [hT e he p hp]
    simp [titleFirstMatch, hfind]
  have h2 : bodyCandidates m (pyLower (gather_body doc)) = [] := by
    unfold bodyCandidates
    have hfil : BODY_RULES.filter
        (fun e => e.2.any (fun p => m p (pyLower (gather_body doc)))) = [] := by
      rw [List.filter_eq_nil_iff]
      intro e he
      simp only [List.any_eq_true, not_exists, not_and]
      intro p hp
      simp [hB e he p hp]
    rw [hfil]
    rfl
  have hmbr : match_by_rules m (extract_title toStr (Value.dict doc)) (gather_body doc)
      = none := by
    simp only [match_by_rules, h1, h2, if_true]
  show (match_by_rules m (extract_title toStr (Value.dict doc)) (gather_body doc)).getD "etc"
      = "etc"
  rw [hmbr]
  rfl

/-- Witness for C4: the empty document has empty title and body and is
classified "etc". -/
theorem claim_c4_witness :
    extract_title (fun _ => "") (Value.dict []) = ""
    ∧ gather_body [] = ""
    ∧ (classify_doc (fun _ _ => false) (fun _ => "") []).2.2 = "etc" :=
  ⟨rfl, rfl,
    claim_c4 (fun _ _ => false) (fun _ => "") [] (fun _ _ _ _ => rfl) (fun _ _ _ _ => rfl)⟩

/-- Counterexample to claim C10 as stated: `"job"` holds the non-empty
string `" "`, which the claim says is returned as-is, but `extract_title`
skips it (the code requires `v.strip()` to be truthy) and returns `""`. -/
theorem claim_c10_counterexample :
    extract_title (fun _ => "") (Value.dict [("job", Value.str " ")]) = ""
    ∧ (" " : String) ≠ "" :=
  ⟨rfl, by decide⟩

/-- Claim C10 (amended): "non-empty string value" corrected to "string with
non-whitespace content".  `extract_title` tries `job`, `position.job`,
`detail.position.job` in order; a non-empty list yields the string form of
its first element, a string surviving `strip` yields itself untruncated,
and strings that are empty or whitespace-only are skipped; only the final
fallback to the first line of the stripped `detail.intro` is truncated to
80 characters, and when nothing yields text the result is `""`. -/
theorem claim_c10 (toStr : Value → String) (doc : Value) :
    (∀ v vs, pyGet doc ["job"] = some (Value.list (v :: vs)) →
        extract_title toStr doc = toStr v)
    ∧ (∀ s, pyGet doc ["job"] = some (Value.str s) → pyStrip s ≠ "" →
        extract_title toStr doc = s)
    ∧ (titleFromPath toStr doc ["job"] = none →
        (∀ v vs, pyGet doc ["position", "job"] = some (Value.list (v :: vs)) →
            extract_title toStr doc = toStr v)
        ∧ (∀ s, pyGet doc ["position", "job"] = some (Value.str s) → pyStrip s ≠ "" →
            extract_title toStr doc = s))
    ∧ (titleFromPath toStr doc ["job"] = none →
        titleFromPath toStr doc ["position", "job"] = none →
        (∀ v vs, pyGet doc ["detail", "position", "job"] = some (Value.list (v :: vs)) →
            extract_title toStr doc = toStr v)
        ∧ (∀ s, pyGet doc ["detail", "position", "job"] = some (Value.str s) →
            pyStrip s ≠ "" → extract_title toStr doc = s))
    ∧ (titleFromPath toStr doc ["job"] = none →
        titleFromPath toStr doc ["position", "job"] = none →
        titleFromPath toStr doc ["detail", "position", "job"] = none →
        (∀ s, pyGet doc ["detail", "intro"] = some (Value.str s) → pyStrip s ≠ "" →
            extract_title toStr doc = String.mk ((firstLine (pyStrip s).data).take 80))
        ∧ ((∀ s, pyGet doc ["detail", "intro"] = some (Value.str s) → pyStrip s = "") →
            extract_title toStr doc = "")) := by
  refine ⟨?_, ?_, ?_, ?_, ?_⟩
  · intro v vs h
    have h1 : titleFromPath toStr doc ["job"] = some (toStr v) := by
      simp [titleFromPath, h]
    simp [extract_title, h1]
  · intro s h hs
    have h1 : titleFromPath toStr doc ["job"] = some s := by
      simp [titleFromPath, h, hs]
    simp [extract_title, h1]
  · intro h1
    constructor
    · intro v vs h
      have h2 : titleFromPath toStr doc ["position", "job"] = some (toStr v) := by
        simp [titleFromPath, h]
      simp [extract_title, h1, h2]
    · intro s h hs
      have h2 : titleFromPath toStr doc ["position", "job"] = some s := by
        simp [titleFromPath, h, hs]
      simp [extract_title, h1, h2]
  · intro h1 h2
    constructor
    · intro v vs h
      have h3 : titleFromPath toStr doc ["detail", "position", "job"] = some (toStr v) := by
        simp [titleFromPath, h]
      simp [extract_title, h1, h2, h3]
    · intro s h hs
      have h3 : titleFromPath toStr doc ["detail", "position", "job"] = some s := by
        simp [titleFromPath, h, hs]
      simp [extract_title, h1, h2, h3]
  · intro h1 h2 h3
    constructor
    · intro s h hs
      simp [extract_title, h1, h2, h3, h, hs]
    · intro hall
      cases hI : pyGet doc ["detail", "intro"] with
      | none => simp [extract_title, h1, h2, h3, hI]
      | some v =>
        cases v with
        | str s => simp [extract_title, h1, h2, h3, hI, hall s hI]
        | null => simp [extract_title, h1, h2, h3, hI]
        | num q => simp [extract_title, h1, h2, h3, hI]
        | list l => simp [extract_title, h1, h2, h3, hI]
        | dict kvs => simp [extract_title, h1, h2, h3, hI]

/-- Witness for C10 at a document whose `job` field is a string with
content. -/
theorem claim_c10_witness :
    extract_title (fun _ => "") (Value.dict [("job", Value.str "백엔드 개발자")])
      = "백엔드 개발자" :=
  (claim_c10 (fun _ => "") (Value.dict [("job", Value.str "백엔드 개발자")])).2.1
    "백엔드 개발자" rfl (by decide)

/-- Helper: a regex alternative whose literal is not whitespace finds
nothing in all-whitespace text. -/
theorem altM_of_allspace (target : Char) (ht : pyIsSpace target = false) :
    ∀ (l pre : List Char), (∀ c ∈ l, pyIsSpace c = true) → altM target pre l = none := by
  intro l
  induction l with
  | nil => intro pre _; rfl
  | cons c cs ih =>
    intro pre h
    have hc : pyIsSpace c = true := h c (List.mem_cons_self c cs)
    have hct : c ≠ target := by
      intro he
      rw [he, ht] at hc
      exact Bool.noConfusion hc
    simp [altM, hc, hct]

/-- Helper: splitting all-whitespace text yields no token. -/
theorem pySplitGo_nil_of_allspace :
    ∀ l, (∀ c ∈ l, pyIsSpace c = true) → pySplitGo [] l = [] := by
  intro l
  induction l with
  | nil => intro _; rfl
  | cons c cs ih =>
    intro h
    have hc : pyIsSpace c = true := h c (List.mem_cons_self c cs)
    have : pySplitGo [] (c :: cs) = pySplitGo [] cs := by
      simp [pySplitGo, hc]
    rw [this]
    exact ih (fun x hx => h x (List.mem_cons_of_mem c hx))

/-- Helper: splitting with a token under construction yields a token. -/
theorem pySplitGo_ne_nil :
    ∀ (l acc : List Char), acc ≠ [] → pySplitGo acc l ≠ [] := by
  intro l
  induction l with
  | nil =>
    intro acc hacc
    have : ¬acc.isEmpty := by simpa [List.isEmpty_iff] using hacc
    simp [pySplitGo, this]
  | cons c cs ih =>
    intro acc hacc
    have hae : ¬acc.isEmpty := by simpa [List.isEmpty_iff] using hacc
    by_cases hc : pyIsSpace c = true
    · simp [pySplitGo, hc, hae]
    · have : pySplitGo acc (c :: cs) = pySplitGo (c :: acc) cs := by
        simp [pySplitGo, hc]
      rw [this]
      exact ih (c :: acc) (List.cons_ne_nil c acc)

/-- Helper: text containing a non-whitespace character splits into at least
one token. -/
theorem pySplit_ne_nil :
    ∀ l, (∃ c ∈ l, pyIsSpace c = false) → pySplit l ≠ [] := by
  intro l
  induction l with
  | nil => rintro ⟨c, hc, _⟩; exact absurd hc (List.not_mem_nil c)
  | cons c cs ih =>
    rintro ⟨d, hd, hds⟩
    by_cases hc : pyIsSpace c = true
    · have hstep : pySplit (c :: cs) = pySplitGo [] cs := by
        simp [pySplit, pySplitGo, hc]
      rw [hstep]
      rcases List.mem_cons.mp hd with rfl | hdin
      · rw [hc] at hds; exact Bool.noConfusion hds
      · exact ih ⟨d, hdin, hds⟩
    · have hstep : pySplit (c :: cs) = pySplitGo [c] cs := by
        simp [pySplit, pySplitGo, hc]
      rw [hstep]
      exact pySplitGo_ne_nil cs [c] (List.cons_ne_nil c [])

/-- Counterexample to claim C8 as stated: on the non-empty all-whitespace
input `" "` the regex finds nothing and `full_location.split()[0]` indexes
an empty list, so `extract_sido` raises `IndexError` instead of returning a
string. -/
theorem claim_c8_counterexample : extract_sido " " = PyResult.raise := rfl

/-- Claim C8 (amended): `extract_sido` returns `""` on the empty string and
returns a string without raising on every input containing at least one
non-whitespace character (the regex token or the first whitespace-delimited
token); on non-empty all-whitespace input — which the call sites exclude by
stripping first — it raises `IndexError`. -/
theorem claim_c8 (s : String) :
    (s = "" → extract_sido s = PyResult.ok "")
    ∧ ((∃ c ∈ s.data, pyIsSpace c = false) → ∃ t, extract_sido s = PyResult.ok t)
    ∧ (s ≠ "" → (∀ c ∈ s.data, pyIsSpace c = true) → extract_sido s = PyResult.raise) := by
  refine ⟨?_, ?_, ?_⟩
  · intro h
    subst h
    rfl
  · intro h
    have hne : s ≠ "" := by
      rintro rfl
      obtain ⟨c, hc, _⟩ := h
      exact absurd hc (List.not_mem_nil c)
    unfold extract_sido
    rw [if_neg hne]
    cases hm : sidoMatch s.data with
    | some g => exact ⟨_, rfl⟩
    | none =>
      cases hsp : pySplit s.data with
      | nil => exact absurd hsp (pySplit_ne_nil s.data h)
      | cons t ts => exact ⟨_, rfl⟩
  · intro hne hall
    have hSi : altM '시' [] s.data = none :=
      altM_of_allspace '시' (by decide) s.data [] hall
    have hDo : altM '도' [] s.data = none :=
      altM_of_allspace '도' (by decide) s.data [] hall
    have hm : sidoMatch s.data = none := by
      simp [sidoMatch, hSi, hDo]
    have hsp : pySplit s.data = [] := pySplitGo_nil_of_allspace s.data hall
    unfold extract_sido
    rw [if_neg hne]
    simp only [hm, hsp]

/-- Witness for C8: an input with non-whitespace content yields a value. -/
theorem claim_c8_witness :
    ∃ t, extract_sido "서울특별시 강남구" = PyResult.ok t :=
  (claim_c8 "서울특별시 강남구").2.1 (by decide)

/-- Helper for C5: the label of a positive salary, written with the
specification's `floor (v / 2,000,000)` bin index (`start/10,000 = k·200`,
`end/10,000 = k·200 + 200`). -/
theorem bucketLabel_eq (q : Rat) (hq : 0 < q) :
    bucketLabel q
      = commaFmt (⌊q / (2000000 : Rat)⌋₊ * 200) ++ "만~"
        ++ commaFmt (⌊q / (2000000 : Rat)⌋₊ * 200 + 200) ++ "만" := by
  have h0 : (0 : Rat) ≤ q := le_of_lt hq
  have hy : pyInt q = ⌊q⌋ := if_pos h0
  have hcast : ⌊q⌋ = ((⌊q⌋₊ : Nat) : Int) := by
    rw [← Int.floor_toNat]
    exact (Int.toNat_of_nonneg (Int.floor_nonneg.mpr h0)).symm
  have hk : ⌊q / (2000000 : Rat)⌋₊ = ⌊q⌋₊ / 2000000 := by
    have := Nat.floor_div_nat q 2000000
    simpa using this
  have hfd : ⌊q⌋.fdiv 2000000 = ((⌊q⌋₊ / 2000000 : Nat) : Int) := by
    rw [Int.fdiv_eq_ediv _ (by norm_num), hcast]
    omega
  simp only [bucketLabel]
  rw [hy, hfd]
  have hstart : ((⌊q⌋₊ / 2000000 : Nat) : Int) * 2000000
      = (((⌊q⌋₊ / 2000000) * 200 : Nat) : Int) * 10000 := by
    push_cast
    ring
  rw [hstart, Int.mul_fdiv_cancel _ (by norm_num)]
  have hstop : (((⌊q⌋₊ / 2000000) * 200 : Nat) : Int) * 10000 + 2000000
      = (((⌊q⌋₊ / 2000000) * 200 + 200 : Nat) : Int) * 10000 := by
    push_cast
    ring
  rw [hstop, Int.mul_fdiv_cancel _ (by norm_num)]
  rw [Int.toNat_natCast, Int.toNat_natCast, hk]

/-- Counterexample to claim C5 as stated: with `company` bound to the truthy
non-dict value `7`, `company.avgSalary` is absent, yet
`standardize_company_salary` does not "emit no label" — `comp.get` raises
`AttributeError`. -/
theorem claim_c5_counterexample :
    standardize_company_salary [("company", Value.num 7)] = PyResult.raise := by
  decide

/-- Claim C5 (amended): when `company` is absent (or a dict) the function
emits no label if `avgSalary` is absent, non-numeric or ≤ 0; a truthy
non-dict `company` instead raises `AttributeError`.  For a positive numeric
value `v` (under a dict `company`) it emits the label built from
`start = ⌊v/2,000,000⌋·2,000,000` and `end = start + 2,000,000`, both
divided by 10,000 and comma-formatted; hence any two positive values with
the same bin index produce the identical label. -/
theorem claim_c5 (doc kvs : List (String × Value)) (q : Rat) :
    (doc.lookup "company" = none → standardize_company_salary doc = PyResult.ok none)
    ∧ (doc.lookup "company" = some (Value.dict kvs) →
        standardize_company_salary doc = PyResult.ok (salaryOf kvs))
    ∧ (kvs.lookup "avgSalary" = none → salaryOf kvs = none)
    ∧ (∀ v, kvs.lookup "avgSalary" = some v → (∀ r, v ≠ Value.num r) → salaryOf kvs = none)
    ∧ (kvs.lookup "avgSalary" = some (Value.num q) → q ≤ 0 → salaryOf kvs = none)
    ∧ (kvs.lookup "avgSalary" = some (Value.num q) → 0 < q →
        salaryOf kvs = some (bucketLabel q)
        ∧ bucketLabel q
            = commaFmt (⌊q / (2000000 : Rat)⌋₊ * 200) ++ "만~"
              ++ commaFmt (⌊q / (2000000 : Rat)⌋₊ * 200 + 200) ++ "만")
    ∧ (∀ q', 0 < q → 0 < q' → ⌊q / (2000000 : Rat)⌋₊ = ⌊q' / (2000000 : Rat)⌋₊ →
        bucketLabel q = bucketLabel q') := by
  refine ⟨?_, ?_, ?_, ?_, ?_, ?_, ?_⟩
  · intro h
    simp [standardize_company_salary, h, salaryOf]
  · intro h
    simp [standardize_company_salary, h]
  · intro h
    simp [salaryOf, h]
  · intro v h hv
    cases v with
    | num r => exact absurd rfl (hv r)
    | null => simp [salaryOf, h]
    | str s => simp [salaryOf, h]
    | list l => simp [salaryOf, h]
    | dict d => simp [salaryOf, h]
  · intro h hq
    simp [salaryOf, h, hq]
  · intro h hq
    refine ⟨?_, bucketLabel_eq q hq⟩
    simp [salaryOf, h, not_le.mpr hq]
  · intro q' hq hq' heq
    rw [bucketLabel_eq q hq, bucketLabel_eq q' hq', heq]

/-- Witness for C5: an average salary of 5,000,000 falls in the
[4,000,000, 6,000,000) bin and is labelled "400만~600만". -/
theorem claim_c5_witness :
    standardize_company_salary
      [("company", Value.dict [("avgSalary", Value.num 5000000)])]
      = PyResult.ok (some "400만~600만") := by
  have h := claim_c5 [("company", Value.dict [("avgSalary", Value.num 5000000)])]
    [("avgSalary", Value.num 5000000)] 5000000
  have h2 := h.2.1 rfl
  have h6 := h.2.2.2.2.2.1 rfl (by norm_num)
  have hk : ⌊(5000000 : Rat) / (2000000 : Rat)⌋₊ = 2 := by
    rw [show (2000000 : Rat) = ((2000000 : Nat) : Rat) by norm_num, Nat.floor_div_nat,
      show (5000000 : Rat) = ((5000000 : Nat) : Rat) by norm_num, Nat.floor_natCast]
  rw [h2, h6.1, h6.2, hk]
  rfl

/-- Helper: prepending the empty string is the identity. -/
theorem empty_append_str (s : String) : "" ++ s = s :=
  String.ext (by rw [String.data_append]; rfl)

/-- Helper: appending to a non-empty right factor is non-empty. -/
theorem append_ne_empty_right (s : String) {t : String} (h : t ≠ "") : s ++ t ≠ "" := by
  intro he
  have hd : (s ++ t).data = [] := by rw [he]
  rw [String.data_append] at hd
  exact h (String.ext (List.append_eq_nil.mp hd).2)

/-- Helper: a non-empty string has a non-empty character list. -/
theorem data_ne_nil {s : String} (h : s ≠ "") : s.data ≠ [] :=
  fun hd => h (String.ext hd)

/-- Helper: the overlap seed holds at most `n` characters. -/
theorem length_pyTail (s : String) (n : Nat) : (pyTail s n).length ≤ n := by
  show (s.data.drop (s.data.length - n)).length ≤ n
  rw [List.length_drop]
  omega

/-- Helper: a positive overlap seed of a non-empty string is non-empty. -/
theorem pyTail_ne_empty {s : String} {n : Nat} (hs : s ≠ "") (hn : 0 < n) :
    pyTail s n ≠ "" := by
  intro he
  have hd : (s.data.drop (s.data.length - n)) = [] := congrArg String.data he
  rw [List.drop_eq_nil_iff] at hd
  have hpos : 0 < s.data.length := List.length_pos.mpr (data_ne_nil hs)
  omega

/-- Helper: `joinBlocks` at a cons whose tail is non-empty. -/
theorem joinBlocks_cons_ne (a : String) (l : List String) (hl : l ≠ []) :
    joinBlocks (a :: l) = a ++ "\n\n" ++ joinBlocks l := by
  cases l with
  | nil => exact absurd rfl hl
  | cons y l' => rfl

/-- Helper: appending one block to a non-empty run extends the join by a
blank line and the block. -/
theorem joinBlocks_append (g : List String) (b : String) (hg : g ≠ []) :
    joinBlocks (g ++ [b]) = joinBlocks g ++ "\n\n" ++ b := by
  induction g with
  | nil => exact absurd rfl hg
  | cons a g' ih =>
    cases g' with
    | nil => rfl
    | cons a2 g'' =>
      have h1 : (a :: a2 :: g'') ++ [b] = a :: ((a2 :: g'') ++ [b]) := rfl
      rw [h1, joinBlocks_cons_ne a ((a2 :: g'') ++ [b]) (by simp),
        ih (List.cons_ne_nil a2 g''),
        joinBlocks_cons_ne a (a2 :: g'') (List.cons_ne_nil a2 g'')]
      simp only [String.append_assoc]

/-- Invariant for C6 over the chunking loop: relative to a list `L` covering
the remaining blocks (and the blocks already inside `cur`), every emitted
chunk is within budget, or is a single block of `L`, or is an overlap seed
of at most `ov` characters joined by a blank line with a single block of
`L`. -/
theorem chunkLoop_bound (maxChars ov : Nat) (L : List String) :
    ∀ (bs : List String) (cur : String),
      (∀ b ∈ bs, b ∈ L) →
      (cur = "" ∨ cur.length ≤ maxChars ∨ cur ∈ L
        ∨ ∃ t b, b ∈ L ∧ t.length ≤ ov ∧ cur = t ++ "\n\n" ++ b) →
      ∀ c ∈ chunkLoop maxChars ov cur bs,
        c.length ≤ maxChars ∨ c ∈ L
          ∨ ∃ t b, b ∈ L ∧ t.length ≤ ov ∧ c = t ++ "\n\n" ++ b := by
  intro bs
  induction bs with
  | nil =>
    intro cur hsub hcur c hc
    by_cases hce : cur = ""
    · rw [show chunkLoop maxChars ov cur [] = [] by simp [chunkLoop, hce]] at hc
      exact absurd hc (List.not_mem_nil c)
    · rw [show chunkLoop maxChars ov cur [] = [cur] by simp [chunkLoop, hce]] at hc
      have he : c = cur := by simpa using hc
      subst he
      rcases hcur with h | h | h | h
      · exact absurd h hce
      · exact Or.inl h
      · exact Or.inr (Or.inl h)
      · exact Or.inr (Or.inr h)
  | cons b bs ih =>
    intro cur hsub hcur c hc
    have hbL : b ∈ L := hsub b (List.mem_cons_self b bs)
    have hsub' : ∀ x ∈ bs, x ∈ L := fun x hx => hsub x (List.mem_cons_of_mem b hx)
    simp only [chunkLoop] at hc
    by_cases hfit : cur.length + ((if cur = "" then 0 else 2) + b.length) ≤ maxChars
    · rw [if_pos hfit] at hc
      refine ih _ hsub' ?_ c hc
      right; left
      by_cases hce : cur = ""
      · rw [if_pos hce]
        rw [if_pos hce] at hfit
        have hc0 : cur.length = 0 := by rw [hce]; rfl
        omega
      · rw [if_neg hce]
        rw [if_neg hce] at hfit
        have hlen : (cur ++ "\n\n" ++ b).length = cur.length + 2 + b.length := by
          rw [String.length_append, String.length_append,
            show ("\n\n" : String).length = 2 from rfl]
        omega
    · rw [if_neg hfit] at hc
      by_cases hce : cur = ""
      · rw [if_pos hce] at hc
        rcases List.mem_cons.mp hc with rfl | hc'
        · exact Or.inr (Or.inl hbL)
        · exact ih _ hsub' (Or.inl rfl) c hc'
      · rw [if_neg hce] at hc
        rcases List.mem_cons.mp hc with rfl | hc'
        · rcases hcur with h | h | h | h
          · exact absurd h hce
          · exact Or.inl h
          · exact Or.inr (Or.inl h)
          · exact Or.inr (Or.inr h)
        · refine ih _ hsub' ?_ c hc'
          by_cases hov : 0 < ov
          · have ht : pyTail cur ov ≠ "" := pyTail_ne_empty hce hov
            rw [if_pos hov, if_neg ht] at hc' ⊢
            right; right; right
            exact ⟨pyTail cur ov, b, hbL, length_pyTail cur ov, rfl⟩
          · rw [if_neg hov, if_pos rfl] at hc' ⊢
            exact Or.inr (Or.inr (Or.inl hbL))

/-- Counterexample to claim C6 as stated: with `max_chars = 10`,
`overlap_chars = 3` and blocks of lengths 5 and 10, the second chunk is the
3-character overlap seed, a blank line and the second block — 15 characters,
exceeding `max_chars`, yet not a single input block. -/
theorem claim_c6_counterexample :
    chunk_by_paragraph_blocks ["aaaaa", "bbbbbbbbbb"] 10 3
      = ["aaaaa", "aaa\n\nbbbbbbbbbb"]
    ∧ ("aaa\n\nbbbbbbbbbb" : String).length = 15
    ∧ ¬ ("aaa\n\nbbbbbbbbbb" ∈ (["aaaaa", "bbbbbbbbbb"] : List String)) := by
  refine ⟨rfl, rfl, ?_⟩
  decide

/-- Claim C6 (amended): every chunk has length at most `max_chars`, except
chunks that are a single input block exceeding `max_chars`, and chunks made
of an overlap seed of at most `overlap_chars` characters, a blank line and a
single input block, which can also exceed `max_chars`. -/
theorem claim_c6 (blocks : List String) (maxChars overlapChars : Nat) (c : String)
    (hc : c ∈ chunk_by_paragraph_blocks blocks maxChars overlapChars) :
    c.length ≤ maxChars
    ∨ (c ∈ blocks ∧ maxChars < c.length)
    ∨ (∃ t b, b ∈ blocks ∧ t.length ≤ overlapChars ∧ c = t ++ "\n\n" ++ b
        ∧ maxChars < c.length) := by
  have h := chunkLoop_bound maxChars overlapChars blocks blocks ""
    (fun _ hx => hx) (Or.inl rfl) c hc
  by_cases hlen : c.length ≤ maxChars
  · exact Or.inl hlen
  · push_neg at hlen
    rcases h with h | h | ⟨t, b, hb, ht, he⟩
    · exact absurd h (not_le.mpr hlen)
    · exact Or.inr (Or.inl ⟨h, hlen⟩)
    · exact Or.inr (Or.inr ⟨t, b, hb, ht, he, hlen⟩)

/-- Witness for C6 at the counterexample input's first chunk. -/
theorem claim_c6_witness :
    ("aaaaa" : String).length ≤ 10
    ∨ ("aaaaa" ∈ (["aaaaa", "bbbbbbbbbb"] : List String) ∧ 10 < ("aaaaa" : String).length)
    ∨ (∃ t b, b ∈ (["aaaaa", "bbbbbbbbbb"] : List String) ∧ t.length ≤ 3
        ∧ "aaaaa" = t ++ "\n\n" ++ b ∧ 10 < ("aaaaa" : String).length) :=
  claim_c6 ["aaaaa", "bbbbbbbbbb"] 10 3 "aaaaa" (by decide)

/-- Helper: only the empty block list reassembles into no chunks. -/
theorem reassem_nil_chunks {ov : Nat} {pfx : String} {blocks : List String}
    (h : Reassem ov pfx blocks []) : blocks = [] := by
  cases h
  rfl

/-- Helper: inversion of a one-chunk reassembly — the single chunk is its
seed followed by all blocks joined by blank lines. -/
theorem reassem_single {ov : Nat} {pfx c : String} {blocks : List String}
    (h : Reassem ov pfx blocks [c]) :
    blocks ≠ [] ∧ c = pfx ++ joinBlocks blocks := by
  cases h with
  | consFresh x1 g rest x2 x3 hg hc hcont =>
    have hr : rest = [] := reassem_nil_chunks hcont
    subst hr
    rw [List.append_nil]
    exact ⟨hg, hc⟩
  | consSeed x1 g rest x2 x3 hg hc hcont =>
    have hr : rest = [] := reassem_nil_chunks hcont
    subst hr
    rw [List.append_nil]
    exact ⟨hg, hc⟩

/-- Counterexample to claim C7 as stated: the block list `["", "x"]`
produces the single chunk `"x"` — the leading empty block vanishes (an
empty block joined to an empty buffer leaves the buffer empty), so no
grouping of the original block sequence with blank-line separators
reconstructs it. -/
theorem claim_c7_counterexample :
    ¬ Reassem 3 "" ["", "x"] (chunk_by_paragraph_blocks ["", "x"] 10 3) := by
  have hch : chunk_by_paragraph_blocks ["", "x"] 10 3 = ["x"] := rfl
  rw [hch]
  intro h
  obtain ⟨-, hc⟩ := reassem_single h
  have hx : ("x" : String) = "\n\nx" := by
    rw [hc]
    rfl
  exact absurd hx (by decide)

/-- The main loop lemma for C7: from a non-empty buffer `cur` that is a seed
`pfx` followed by the joined non-empty run `g`, the loop emits chunks that
reassemble `g` and the remaining (non-empty) blocks. -/
theorem chunkLoop_reassem_cons (maxChars ov : Nat) :
    ∀ (bs : List String), (∀ x ∈ bs, x ≠ "") →
      ∀ (pfx cur : String) (g : List String), g ≠ [] → cur ≠ "" →
        cur = pfx ++ joinBlocks g →
        Reassem ov pfx (g ++ bs) (chunkLoop maxChars ov cur bs) := by
  intro bs
  induction bs with
  | nil =>
    intro _ pfx cur g hg hcur hcg
    rw [show chunkLoop maxChars ov cur [] = [cur] by simp [chunkLoop, hcur]]
    exact Reassem.consFresh pfx g [] [] cur hg hcg (Reassem.nil "")
  | cons b bs ih =>
    intro hbs pfx cur g hg hcur hcg
    have hb : b ≠ "" := hbs b (List.mem_cons_self b bs)
    have hbs' : ∀ x ∈ bs, x ≠ "" := fun x hx => hbs x (List.mem_cons_of_mem b hx)
    simp only [chunkLoop]
    by_cases hfit : cur.length + ((if cur = "" then 0 else 2) + b.length) ≤ maxChars
    · rw [if_pos hfit, if_neg hcur]
      have hcg' : cur ++ "\n\n" ++ b = pfx ++ joinBlocks (g ++ [b]) := by
        rw [joinBlocks_append g b hg, hcg]
        simp only [String.append_assoc]
      have h := ih hbs' pfx (cur ++ "\n\n" ++ b) (g ++ [b]) (by simp)
        (append_ne_empty_right _ hb) hcg'
      rw [List.append_assoc, List.singleton_append] at h
      exact h
    · rw [if_neg hfit, if_neg hcur]
      by_cases hov : 0 < ov
      · have ht : pyTail cur ov ≠ "" := pyTail_ne_empty hcur hov
        rw [if_pos hov, if_neg ht]
        have h := ih hbs' (pyTail cur ov ++ "\n\n") (pyTail cur ov ++ "\n\n" ++ b) [b]
          (List.cons_ne_nil b []) (append_ne_empty_right _ hb) rfl
        exact Reassem.consSeed pfx g (b :: bs) _ cur hg hcg h
      · rw [if_neg hov, if_pos rfl]
        have h := ih hbs' "" b [b] (List.cons_ne_nil b []) hb (empty_append_str b).symm
        exact Reassem.consFresh pfx g (b :: bs) _ cur hg hcg h

/-- The entry lemma for C7: from the empty buffer, the loop emits chunks
that reassemble all remaining (non-empty) blocks. -/
theorem chunkLoop_reassem_start (maxChars ov : Nat) :
    ∀ (bs : List String), (∀ x ∈ bs, x ≠ "") →
      Reassem ov "" bs (chunkLoop maxChars ov "" bs) := by
  intro bs
  induction bs with
  | nil =>
    intro _
    exact Reassem.nil ""
  | cons b bs ih =>
    intro hbs
    have hb : b ≠ "" := hbs b (List.mem_cons_self b bs)
    have hbs' : ∀ x ∈ bs, x ≠ "" := fun x hx => hbs x (List.mem_cons_of_mem b hx)
    simp only [chunkLoop, if_true]
    by_cases hfit : ("" : String).length + (0 + b.length) ≤ maxChars
    · rw [if_pos hfit]
      exact chunkLoop_reassem_cons maxChars ov bs hbs' "" b [b]
        (List.cons_ne_nil b []) hb (empty_append_str b).symm
    · rw [if_neg hfit]
      exact Reassem.consFresh "" [b] bs _ b (List.cons_ne_nil b [])
        (empty_append_str b).symm (ih hbs')

/-- Claim C7 (amended): for every list of *non-empty* blocks, the chunks of
`chunk_by_paragraph_blocks` reassemble the original block sequence — every
block appears exactly once, in order, consecutive blocks inside a chunk are
separated by a blank line, and each chunk after the first starts with
either nothing or the trailing `overlap_chars` characters of the previous
chunk followed by a blank line (`Reassem`).  An empty block at the start of
a buffer is dropped by the code, so the claim fails for empty blocks. -/
theorem claim_c7 (blocks : List String) (maxChars overlapChars : Nat)
    (hne : ∀ b ∈ blocks, b ≠ "") :
    Reassem overlapChars "" blocks (chunk_by_paragraph_blocks blocks maxChars overlapChars) :=
  chunkLoop_reassem_start maxChars overlapChars blocks hne

/-- Witness for C7 at a concrete block list. -/
theorem claim_c7_witness :
    Reassem 3 "" ["ab", "cd"] (chunk_by_paragraph_blocks ["ab", "cd"] 10 3) :=
  claim_c7 ["ab", "cd"] 10 3 (by decide)

end Serverless
